import Mathlib

/-!
Shallow embedding of the `cli-library` book catalog manager
(`src/constants.py`, `src/exceptions.py`, `src/schemas.py`, `src/service.py`).

Book records are pydantic models; the store is the in-memory list
`LibraryService.books`.  Stateful methods are embedded as pure functions
from the book list to a result together with the new book list; methods
that can raise return `Except String`, where the `String` is the error
message.  Python strings are Lean `String`s (both compare lexicographically
by code point); Python `int` is Lean `Int`.
-/

namespace CliLibrary

/-! ### `src/constants.py` -/

/-- `BookStatus(str, Enum)` with members `available = "в наличии"` and
`issued = "выдана"`. -/
inductive BookStatus where
  | available
  | issued
deriving DecidableEq, Repr

/-- The `.value` of a `BookStatus` member (a `str` enum, so the member is
observably equal to this string). -/
def BookStatus.value : BookStatus → String
  | .available => "в наличии"
  | .issued => "выдана"

/-! ### `src/exceptions.py` -/

/-- The message carried by the `BookDoesNotExists` exception. -/
def bookDoesNotExistsMsg (book_id : String) : String :=
  "The book with the ID \"" ++ book_id ++ "\" does not exist."

/-! ### Python primitives used by `src/schemas.py` and `src/service.py` -/

/-- Python `str.isalpha`, modelled on the Basic Latin and Cyrillic letters
(the alphabets this repository's data uses); characters of other scripts are
not modelled and are mapped to `false`. -/
def pyIsAlpha (c : Char) : Bool :=
  ('A' ≤ c && c ≤ 'Z') || ('a' ≤ c && c ≤ 'z') ||
    ('А' ≤ c && c ≤ 'я') || c = 'Ё' || c = 'ё'

/-- Python `str.isspace`, modelled on the ASCII whitespace characters. -/
def pyIsSpace (c : Char) : Bool :=
  c = ' ' || c = '\t' || c = '\n' || c = '\x0b' || c = '\x0c' || c = '\r'

/-- Python `str.lower`, modelled on Basic Latin and Cyrillic (identity on
every other character). -/
def pyLowerChar (c : Char) : Char :=
  if 'A' ≤ c && c ≤ 'Z' then Char.ofNat (c.toNat + 32)
  else if 'А' ≤ c && c ≤ 'Я' then Char.ofNat (c.toNat + 32)
  else if c = 'Ё' then 'ё'
  else c

/-- `s.lower()` applied to a whole string. -/
def strLower (s : String) : String :=
  ⟨s.data.map pyLowerChar⟩

/-- Python's substring test `needle in hay`. -/
def containsSub (needle : List Char) : List Char → Bool
  | [] => needle.isEmpty
  | c :: rest => needle.isPrefixOf (c :: rest) || containsSub needle rest

/-- The integer value of a string of ASCII decimal digits, read in base 10
(what Python's `int()` returns on such a string). -/
def strDigitsToInt (s : String) : Int :=
  ((s.data.foldl (fun a c => a * 10 + (c.toNat - 48)) 0 : Nat) : Int)

/-- Python `int()`, modelled on `int` values and on strings made of ASCII
decimal digits only (the inputs the repository's CLI exercises); any other
string is not modelled and yields `none` (Python raises `ValueError`). -/
def pyInt : Int ⊕ String → Option Int
  | .inl n => some n
  | .inr s =>
    if s.data ≠ [] && s.data.all (·.isDigit) then
      some (strDigitsToInt s)
    else
      none

/-- `str(uuid.uuid4())`: the canonical 8-4-4-4-12 lowercase-hex form of a
random version-4 UUID.  The OS randomness is abstracted as a `seed` input;
the version nibble `4` and the variant bits `10` are fixed as in RFC 4122. -/
def hexChar (n : Nat) : Char :=
  if n < 10 then Char.ofNat (48 + n) else Char.ofNat (87 + n)

/-- Fixed-width lowercase hexadecimal rendering (most significant digit
first), as `uuid` prints each group. -/
def hexStr (len n : Nat) : String :=
  ⟨(List.range len).map (fun i => hexChar (n / 16 ^ (len - 1 - i) % 16))⟩

def uuid4 (seed : Nat) : String :=
  hexStr 8 (seed % 2 ^ 32) ++ "-" ++
    hexStr 4 (seed / 2 ^ 32 % 2 ^ 16) ++ "-" ++
    hexStr 4 (4 * 2 ^ 12 + seed / 2 ^ 48 % 2 ^ 12) ++ "-" ++
    hexStr 4 (2 ^ 15 + seed / 2 ^ 60 % 2 ^ 14) ++ "-" ++
    hexStr 12 (seed / 2 ^ 74 % 2 ^ 48)

/-! ### `src/schemas.py` -/

/-- `BaseBookSchema.validate_author`: every character is a letter, a
whitespace character, or one of `.,-`; and none of `"  "`, `".."`, `",,"`
occurs as a substring.  (Doubled dashes are not checked.) -/
def validate_author (value : String) : Bool :=
  value.data.all (fun c => pyIsAlpha c || pyIsSpace c || c = '.' || c = ',' || c = '-') &&
    !(containsSub "  ".data value.data || containsSub "..".data value.data ||
      containsSub ",,".data value.data)

/-- The field constraints of `BaseBookSchema`: `title` has `max_length=50`,
`author` passes `validate_author`, `year` has `ge=0`. -/
def baseSchemaOk (title author : String) (year : Int) : Bool :=
  title.length ≤ 50 && validate_author author && 0 ≤ year

/-- `BookRead`: `title`, `author`, `year` from `BaseBookSchema` plus `id`
and `status`. -/
structure BookRead where
  title : String
  author : String
  year : Int
  id : String
  status : BookStatus
deriving DecidableEq, Repr

/-- `BookCreate`: the validated creation payload (`title`, `author`,
`year`). -/
structure BookCreate where
  title : String
  author : String
  year : Int
deriving DecidableEq, Repr

/-- `BookCreate(title=…, author=…, year=…)` /
`BookCreate.model_validate`: runs the `BaseBookSchema` constraints and
builds the model, or raises `ValidationError`. -/
def bookCreateValidate (title author : String) (year : Int) :
    Except String BookCreate :=
  if baseSchemaOk title author year then
    .ok ⟨title, author, year⟩
  else
    .error "ValidationError"

/-- `BookRead.model_validate` on an already-typed record: re-runs the
`BaseBookSchema` constraints and builds the model, or raises
`ValidationError`. -/
def bookReadValidate (title author : String) (year : Int) (id : String)
    (status : BookStatus) : Except String BookRead :=
  if baseSchemaOk title author year then
    .ok ⟨title, author, year, id, status⟩
  else
    .error "ValidationError"

/-! ### `src/service.py` — `LibraryService`

The in-memory store `self.books` is the `List BookRead` threaded through
every operation. -/

/-- Sorting by a key function, as Python's `sorted(…, key=k)` /
`list.sort(key=k)`: a stable sort under the total preorder `k a ≤ k b`. -/
def keyLe {κ : Type} [LinearOrder κ] (k : BookRead → κ) (a b : BookRead) : Prop :=
  k a ≤ k b

instance {κ : Type} [LinearOrder κ] (k : BookRead → κ) :
    DecidableRel (keyLe k) :=
  fun a b => inferInstanceAs (Decidable (k a ≤ k b))

instance {κ : Type} [LinearOrder κ] (k : BookRead → κ) :
    IsTotal BookRead (keyLe k) :=
  ⟨fun a b => le_total (k a) (k b)⟩

instance {κ : Type} [LinearOrder κ] (k : BookRead → κ) :
    IsTrans BookRead (keyLe k) :=
  ⟨fun _ _ _ hab hbc => le_trans hab hbc⟩

/-- A Python string, as compared by `<`/`sorted`: its sequence of code
points, ordered lexicographically (`String <` in Lean is the same order on
`String.data`). -/
def pyStr (s : String) : List Char :=
  s.data

/-- The Python tuple key `(x.title, x.author, x.id)` under tuple
(lexicographic) comparison. -/
def keyTitleAuthorId (b : BookRead) : List Char ×ₗ List Char ×ₗ List Char :=
  toLex (pyStr b.title, toLex (pyStr b.author, pyStr b.id))

/-- The Python tuple key `(x.title, x.author, x.year, x.id)`. -/
def keyTitleAuthorYearId (b : BookRead) :
    List Char ×ₗ List Char ×ₗ Int ×ₗ List Char :=
  toLex (pyStr b.title, toLex (pyStr b.author, toLex (b.year, pyStr b.id)))

/-- The Python tuple key `(x.author, x.title, x.year, x.id)`. -/
def keyAuthorTitleYearId (b : BookRead) :
    List Char ×ₗ List Char ×ₗ Int ×ₗ List Char :=
  toLex (pyStr b.author, toLex (pyStr b.title, toLex (b.year, pyStr b.id)))

/-- The Python tuple key `(x.year, x.author, x.title, x.id)`. -/
def keyYearAuthorTitleId (b : BookRead) :
    Int ×ₗ List Char ×ₗ List Char ×ₗ List Char :=
  toLex (b.year, toLex (pyStr b.author, toLex (pyStr b.title, pyStr b.id)))

/-- `LibraryService.add_book`: builds the record dict with a fresh
`str(uuid.uuid4())` id and status `available`, re-validates it through
`BookRead.model_validate`, and appends it to `self.books`.  The random
uuid draw is abstracted as the `seed` argument.  Returns the validated
book and the new store. -/
def add_book (books : List BookRead) (seed : Nat) (data : BookCreate) :
    Except String (BookRead × List BookRead) :=
  match bookReadValidate data.title data.author data.year (uuid4 seed) .available with
  | .error e => .error e
  | .ok validated_book => .ok (validated_book, books ++ [validated_book])

/-- The CLI `add` pipeline (`main.add`): construct
`BookCreate(title=…, author=…, year=…)` (which validates), then call
`add_book`. -/
def createBook (books : List BookRead) (seed : Nat) (title author : String)
    (year : Int) : Except String (BookRead × List BookRead) :=
  match bookCreateValidate title author year with
  | .error e => .error e
  | .ok data => add_book books seed data

/-- `LibraryService.list_books`:
`sorted(self.books, key=lambda x: (x.title, x.author, x.id))`. -/
def list_books (books : List BookRead) : List BookRead :=
  books.insertionSort (keyLe keyTitleAuthorId)

/-- `LibraryService.find_books_by_name`: keep the books whose lowered title
contains the lowered needle, then
`books.sort(key=lambda x: (x.title, x.author, x.year, x.id))`. -/
def find_books_by_name (books : List BookRead) (name : String) : List BookRead :=
  (books.filter fun book => containsSub (strLower name).data (strLower book.title).data).insertionSort
    (keyLe keyTitleAuthorYearId)

/-- `LibraryService.find_books_by_author`: keep the books whose lowered
author contains the lowered needle, then
`books.sort(key=lambda x: (x.author, x.title, x.year, x.id))`. -/
def find_books_by_author (books : List BookRead) (author : String) : List BookRead :=
  (books.filter fun book => containsSub (strLower author).data (strLower book.author).data).insertionSort
    (keyLe keyAuthorTitleYearId)

/-- `LibraryService.find_books_by_year`: keep the books with
`int(year) == book.year`, then
`books.sort(key=lambda x: (x.year, x.author, x.title, x.id))`.  `none`
models the `ValueError`/`TypeError` raised by `int(year)` on a non-numeric
argument. -/
def find_books_by_year (books : List BookRead) (year : Int ⊕ String) :
    Option (List BookRead) :=
  (pyInt year).map fun n =>
    (books.filter fun book => book.year = n).insertionSort (keyLe keyYearAuthorTitleId)

/-- `LibraryService.find_book_by_id`: first book with
`book_id.lower() == book.id.lower()`, else `None`. -/
def find_book_by_id (books : List BookRead) (book_id : String) : Option BookRead :=
  books.find? fun book => strLower book_id = strLower book.id

/-- `LibraryService.delete_book`: look the book up via `find_book_by_id`;
raise `BookDoesNotExists` if absent, else `self.books.remove(book)`
(removal of the first list element equal to the found book). -/
def delete_book (books : List BookRead) (book_id : String) :
    Except String (List BookRead) :=
  match find_book_by_id books book_id with
  | none => .error (bookDoesNotExistsMsg book_id)
  | some book => .ok (books.erase book)

/-- `LibraryService.update_status`: scan `self.books`; on the first book
with `book.id == book_id` overwrite its status and stop; raise
`BookDoesNotExists` if the scan finds none. -/
def update_status : List BookRead → String → BookStatus → Except String (List BookRead)
  | [], book_id, _ => .error (bookDoesNotExistsMsg book_id)
  | book :: rest, book_id, status =>
    if book.id = book_id then
      .ok ({ book with status := status } :: rest)
    else
      (update_status rest book_id status).map (book :: ·)

/-! ### Persistence (`BookSchemaEncoder`, `save_data`, `_load_data`)

The JSON document is modelled as a JSON value tree; `save_data` produces
the tree `json.dump` writes (with `ensure_ascii=False` the strings are kept
verbatim), `load_data` consumes the tree `json.load` parses back. -/

inductive Json where
  | str (s : String)
  | int (n : Int)
  | arr (xs : List Json)
  | obj (fields : List (String × Json))

/-- `BookSchemaEncoder.default` on a `BookRead`: `model_dump` in field
order (`title`, `author`, `year` from the base schema, then `id`,
`status`); the `str`-enum status is serialized as its value string. -/
def bookToJson (b : BookRead) : Json :=
  .obj [("title", .str b.title), ("author", .str b.author), ("year", .int b.year),
    ("id", .str b.id), ("status", .str b.status.value)]

/-- `LibraryService.save_data`: serialize the whole list, fully
overwriting the file. -/
def save_data (books : List BookRead) : Json :=
  .arr (books.map bookToJson)

/-- Field access on a parsed JSON object (`model_validate` reads the dict
entries by name). -/
def lookupField (fields : List (String × Json)) (name : String) : Option Json :=
  (fields.find? fun p => p.1 = name).map (·.2)

/-- Pydantic coercion of the raw status string into the `str`-enum
`BookStatus`. -/
def statusOfValue (s : String) : Option BookStatus :=
  if s = "в наличии" then some .available
  else if s = "выдана" then some .issued
  else none

/-- `BookRead.model_validate(book)` on one parsed JSON record: all five
fields must be present with the right types, the status string must be a
`BookStatus` value, and the base-schema constraints are re-checked. -/
def bookFromJson (j : Json) : Except String BookRead :=
  match j with
  | .obj fields =>
    match lookupField fields "title", lookupField fields "author",
        lookupField fields "year", lookupField fields "id",
        lookupField fields "status" with
    | some (.str title), some (.str author), some (.int year), some (.str id),
        some (.str st) =>
      match statusOfValue st with
      | some status => bookReadValidate title author year id status
      | none => .error "ValidationError"
    | _, _, _, _, _ => .error "ValidationError"
  | _ => .error "ValidationError"

/-- The list comprehension
`[BookRead.model_validate(book) for book in json.load(file)]`: records are
validated left to right and the first failure fails the whole load. -/
def validateBooks : List Json → Except String (List BookRead)
  | [] => .ok []
  | j :: rest =>
    match bookFromJson j with
    | .error e => .error e
    | .ok b => (validateBooks rest).map (b :: ·)

/-- `LibraryService._load_data`: a missing file (`none`) loads as the empty
list; otherwise the document must be an array and every record must pass
`BookRead.model_validate`. -/
def load_data (file : Option Json) : Except String (List BookRead) :=
  match file with
  | none => .ok []
  | some (.arr xs) => validateBooks xs
  | some _ => .error "ValidationError"

/-! ### Reachable store states

The states the store can be in after any sequence of Create, Delete and
UpdateStatus operations starting from the empty store.  An operation that
raises leaves `self.books` unchanged, so only the successful outcomes add
states.  Fresh-id generation is modelled, as the spec's uniqueness claim
assumes, by requiring the drawn `uuid4 seed` not to collide with an id
already in the store. -/

inductive Reachable : List BookRead → Prop
  | empty : Reachable []
  | create {books : List BookRead} {seed : Nat} {data : BookCreate}
      {b : BookRead} {books' : List BookRead} (h : Reachable books)
      (hfresh : uuid4 seed ∉ books.map (fun x => x.id))
      (hok : add_book books seed data = .ok (b, books')) : Reachable books'
  | delete {books books' : List BookRead} {book_id : String}
      (h : Reachable books)
      (hok : delete_book books book_id = .ok books') : Reachable books'
  | update {books books' : List BookRead} {book_id : String}
      {status : BookStatus} (h : Reachable books)
      (hok : update_status books book_id status = .ok books') : Reachable books'

/-! ### Concrete records used in the examples

The titles, authors and years are the repository's own test data
(`tests/test_cli.py`); ids are sample values. -/

def exTyomnye : BookRead :=
  ⟨"Тёмные аллеи", "Бунин Иван Алексеевич", 1937, "id-1", .available⟩

def exRekviem : BookRead :=
  ⟨"Реквием", "Ахматова Анна", 1963, "id-2", .available⟩

def exMertvye : BookRead :=
  ⟨"Мертвые души", "Гоголь Николай Васильевич", 1842, "id-3", .available⟩

def ex1984 : BookRead :=
  ⟨"1984", "George Orwell", 1949, "id-4", .available⟩

def exPriroda : BookRead :=
  ⟨"Природа", "Иванов Иван", 2000, "id-5", .available⟩

def exRaznoobraznaya : BookRead :=
  ⟨"Разнообразная природа России", "Петров Петр", 2001, "id-6", .available⟩

def exProsto : BookRead :=
  ⟨"Просто книга", "Сидоров Сидор", 2002, "id-7", .available⟩

/-- A record whose id is upper-case: queried with the lower-case id
`"abc"`, it matches only up to letter case. -/
def exUpperId : BookRead :=
  ⟨"Книга", "Автор", 2000, "ABC", .available⟩

/-- A record whose id is exactly the lower-case query string `"abc"`. -/
def exLowerId : BookRead :=
  ⟨"Другая книга", "Другой Автор", 2001, "abc", .issued⟩

/-! ## Helper lemmas -/

theorem hexStr_length (len n : Nat) : (hexStr len n).length = len := by
  simp [hexStr, String.length]

theorem uuid4_length (seed : Nat) : (uuid4 seed).length = 36 := by
  have hdash : ("-" : String).length = 1 := rfl
  simp [uuid4, String.length_append, hexStr_length, hdash]

theorem uuid4_ne_empty (seed : Nat) : uuid4 seed ≠ "" := by
  intro h
  have h36 := uuid4_length seed
  rw [h] at h36
  simp [String.length] at h36

theorem add_book_ok (books : List BookRead) (seed : Nat) (data : BookCreate)
    (hvalid : baseSchemaOk data.title data.author data.year = true) :
    add_book books seed data =
      .ok (⟨data.title, data.author, data.year, uuid4 seed, .available⟩,
        books ++ [⟨data.title, data.author, data.year, uuid4 seed, .available⟩]) := by
  simp [add_book, bookReadValidate, hvalid]

/-! ## C1 -/

/-- C1: for every Create input whose title, author and year satisfy the
format constraints, and for every uuid draw that does not collide with an
id already in the store, Create succeeds and returns a record whose id is
non-empty and distinct from every stored id, whose status is `available`,
whose title, author and year equal the input, and the store afterwards is
the old store with exactly this record appended. -/
theorem create_ok (books : List BookRead) (seed : Nat) (title author : String)
    (year : Int) (hvalid : baseSchemaOk title author year = true)
    (hfresh : uuid4 seed ∉ books.map (fun x => x.id)) :
    ∃ b : BookRead,
      createBook books seed title author year = .ok (b, books ++ [b]) ∧
        b.id ≠ "" ∧ b.id ∉ books.map (fun x => x.id) ∧
        b.status = .available ∧ b.title = title ∧ b.author = author ∧
        b.year = year := by
  refine ⟨⟨title, author, year, uuid4 seed, .available⟩, ?_, uuid4_ne_empty seed,
    hfresh, rfl, rfl, rfl, rfl⟩
  simp only [createBook, bookCreateValidate, hvalid, if_true]
  exact add_book_ok books seed ⟨title, author, year⟩ hvalid

/-- C1 witness: a concrete successful Create on the empty store, with one of
the repository's own test inputs. -/
theorem create_ok_witness :
    ∃ b : BookRead,
      createBook [] 0 "Тёмные аллеи" "Бунин Иван Алексеевич" 1937 =
          .ok (b, [] ++ [b]) ∧
        b.id ≠ "" ∧ b.id ∉ ([] : List BookRead).map (fun x => x.id) ∧
        b.status = .available ∧ b.title = "Тёмные аллеи" ∧
        b.author = "Бунин Иван Алексеевич" ∧ b.year = 1937 :=
  create_ok [] 0 "Тёмные аллеи" "Бунин Иван Алексеевич" 1937 (by decide)
    (by decide)

/-! ## C2 -/

theorem bookFromJson_bookToJson (b : BookRead)
    (hvalid : baseSchemaOk b.title b.author b.year = true) :
    bookFromJson (bookToJson b) = .ok b := by
  have hstatus : statusOfValue b.status.value = some b.status := by
    cases b.status <;> simp [statusOfValue, BookStatus.value]
  simp [bookToJson, bookFromJson, lookupField, List.find?, hstatus,
    bookReadValidate, hvalid]

/-- C2: saving any list of schema-valid records and loading the result on a
fresh store yields exactly the list saved — same count, ids, titles,
authors, years and statuses, with all text (Cyrillic included) preserved
verbatim. -/
theorem save_load_roundtrip (books : List BookRead)
    (hvalid : ∀ b ∈ books, baseSchemaOk b.title b.author b.year = true) :
    load_data (some (save_data books)) = .ok books := by
  simp only [load_data, save_data]
  induction books with
  | nil => rfl
  | cons b rest ih =>
    have hb : baseSchemaOk b.title b.author b.year = true :=
      hvalid b (List.mem_cons_self b rest)
    have hrest : ∀ x ∈ rest, baseSchemaOk x.title x.author x.year = true :=
      fun x hx => hvalid x (List.mem_cons_of_mem b hx)
    simp [validateBooks, bookFromJson_bookToJson b hb, ih hrest, Except.map]

/-- C2 witness: a concrete round trip through the JSON document for a store
holding Cyrillic and Latin records. -/
theorem save_load_roundtrip_witness :
    load_data (some (save_data [exTyomnye, ex1984])) = .ok [exTyomnye, ex1984] :=
  save_load_roundtrip [exTyomnye, ex1984] (by decide)

/-! ## C3 -/

theorem char_le_iff_toNat (a b : Char) : a ≤ b ↔ a.toNat ≤ b.toNat := by
  rw [Char.le_def, UInt32.le_def, BitVec.le_def]
  exact Iff.rfl

/-- An ASCII decimal digit fails `validate_author`'s character test. -/
theorem charAllowed_eq_false_of_digit (c : Char) (hd : c.isDigit = true) :
    (pyIsAlpha c || pyIsSpace c || c = '.' || c = ',' || c = '-') = false := by
  simp only [Char.isDigit, Bool.and_eq_true, decide_eq_true_eq, ge_iff_le] at hd
  obtain ⟨h1, h2⟩ := hd
  rw [UInt32.le_def, BitVec.le_def] at h1 h2
  have h1n : 48 ≤ c.toNat := h1
  have h2n : c.toNat ≤ 57 := h2
  apply Bool.eq_false_iff.mpr
  intro hcontra
  simp only [pyIsAlpha, pyIsSpace, Bool.or_eq_true, Bool.and_eq_true,
    decide_eq_true_eq] at hcontra
  rcases hcontra with ((((((((⟨hlo, _⟩ | ⟨hlo, _⟩) | ⟨hlo, _⟩) | rfl) | rfl) |
    (((((rfl | rfl) | rfl) | rfl) | rfl) | rfl)) | rfl) | rfl) | rfl)
  · rw [char_le_iff_toNat] at hlo
    exact absurd (hlo.trans h2n) (by decide)
  · rw [char_le_iff_toNat] at hlo
    exact absurd (hlo.trans h2n) (by decide)
  · rw [char_le_iff_toNat] at hlo
    exact absurd (hlo.trans h2n) (by decide)
  all_goals exact absurd (And.intro h1n h2n) (by decide)

/-- C3 counterexample: an author containing a doubled dash is accepted —
`validate_author` checks doubled spaces, periods and commas but not doubled
dashes, so this Create succeeds instead of failing with `ValidationError`. -/
theorem create_doubled_dash_accepted :
    createBook [] 0 "Тест" "Иванов--Петров" 2000 =
      .ok (⟨"Тест", "Иванов--Петров", 2000, uuid4 0, .available⟩,
        [⟨"Тест", "Иванов--Петров", 2000, uuid4 0, .available⟩]) := by
  rfl

/-- C3 (amended): Create fails with `ValidationError` whenever the title
exceeds 50 characters, or the year is negative, or the author contains a
digit or any character outside letters/whitespace/periods/commas/dashes, or
the author contains a doubled space, period or comma.  (A doubled dash is
NOT rejected; the counterexample above shows the original claim's doubled
dash case fails on the code.) -/
theorem create_invalid_rejected (books : List BookRead) (seed : Nat)
    (title author : String) (year : Int)
    (hbad : 50 < title.length ∨ year < 0 ∨
      (∃ c ∈ author.data, c.isDigit = true) ∨
      (∃ c ∈ author.data,
        (pyIsAlpha c || pyIsSpace c || c = '.' || c = ',' || c = '-') = false) ∨
      containsSub "  ".data author.data = true ∨
      containsSub "..".data author.data = true ∨
      containsSub ",,".data author.data = true) :
    createBook books seed title author year = .error "ValidationError" := by
  have hfalse : baseSchemaOk title author year = false := by
    apply Bool.eq_false_iff.mpr
    intro htrue
    simp only [baseSchemaOk, Bool.and_eq_true, decide_eq_true_eq] at htrue
    obtain ⟨⟨htitle, hauthor⟩, hyear⟩ := htrue
    have hchars : ∀ x ∈ author.data,
        (pyIsAlpha x || pyIsSpace x || x = '.' || x = ',' || x = '-') = true := by
      have hp := hauthor
      simp only [validate_author, Bool.and_eq_true, List.all_eq_true] at hp
      exact hp.1
    rcases hbad with ht | hy | ⟨c, hc, hdig⟩ | ⟨c, hc, hcbad⟩ | hs | hp | hco
    · omega
    · omega
    · have h1 := hchars c hc
      rw [charAllowed_eq_false_of_digit c hdig] at h1
      exact absurd h1 (by decide)
    · have h1 := hchars c hc
      rw [hcbad] at h1
      exact absurd h1 (by decide)
    · simp [validate_author, hs] at hauthor
    · simp [validate_author, hp] at hauthor
    · simp [validate_author, hco] at hauthor
  simp [createBook, bookCreateValidate, hfalse]

/-- C3 witness: concrete rejected inputs from the repository's own test
suite — a doubled space and a digit in the author. -/
theorem create_invalid_rejected_witness :
    createBook [] 0 "два пробела подряд в имени автора" "Бунин Иван  Алексеевич"
        1937 = .error "ValidationError" ∧
      createBook [] 0 "Цифры в имени автора" "Бунин Иван Алексеевич123" 1937 =
        .error "ValidationError" :=
  ⟨create_invalid_rejected [] 0 "два пробела подряд в имени автора"
      "Бунин Иван  Алексеевич" 1937 (by decide),
    create_invalid_rejected [] 0 "Цифры в имени автора"
      "Бунин Иван Алексеевич123" 1937 (by decide)⟩

/-! ## C4 -/

theorem update_status_ok_map_id (books : List BookRead) (book_id : String)
    (status : BookStatus) (books' : List BookRead)
    (hok : update_status books book_id status = .ok books') :
    books'.map (fun x => x.id) = books.map (fun x => x.id) := by
  induction books generalizing books' with
  | nil => simp [update_status] at hok
  | cons b rest ih =>
    by_cases hb : b.id = book_id
    · simp only [update_status, if_pos hb, Except.ok.injEq] at hok
      subst hok
      simp
    · simp only [update_status, if_neg hb] at hok
      cases hrec : update_status rest book_id status with
      | error e => rw [hrec] at hok; simp [Except.map] at hok
      | ok l =>
        rw [hrec] at hok
        simp only [Except.map, Except.ok.injEq] at hok
        subst hok
        simp [ih l hrec]

/-- C4: every store state reachable from the empty store by Create, Delete
and UpdateStatus operations (with each uuid draw assumed fresh) has
pairwise-distinct record ids. -/
theorem reachable_ids_nodup (books : List BookRead) (h : Reachable books) :
    (books.map (fun x => x.id)).Nodup := by
  induction h with
  | empty => simp
  | create h hfresh hok ih =>
    rename_i books seed data b books'
    cases hv : bookReadValidate data.title data.author data.year (uuid4 seed)
        BookStatus.available with
    | error e => simp only [add_book, hv] at hok; cases hok
    | ok vb =>
      simp only [add_book, hv, Except.ok.injEq, Prod.mk.injEq] at hok
      obtain ⟨rfl, rfl⟩ := hok
      have hvb : vb.id = uuid4 seed := by
        simp only [bookReadValidate] at hv
        split at hv
        · cases hv; rfl
        · cases hv
      simp only [List.map_append, List.map_cons, List.map_nil, hvb]
      rw [List.nodup_append]
      refine ⟨ih, List.nodup_singleton _, ?_⟩
      intro a ha hsing
      simp only [List.mem_singleton] at hsing
      subst hsing
      exact hfresh ha
  | delete h hok ih =>
    rename_i books books' book_id
    cases hfind : find_book_by_id books book_id with
    | none => simp only [delete_book, hfind] at hok; cases hok
    | some bk =>
      simp only [delete_book, hfind, Except.ok.injEq] at hok
      subst hok
      exact ih.sublist ((List.erase_sublist bk books).map _)
  | update h hok ih =>
    rename_i books books' book_id status
    rw [update_status_ok_map_id books book_id status books' hok]
    exact ih

/-- C4 witness: the store after one successful Create from the empty store
is reachable and has distinct ids. -/
theorem reachable_ids_nodup_witness :
    (([⟨"Тёмные аллеи", "Бунин Иван Алексеевич", 1937, uuid4 0,
        BookStatus.available⟩] : List BookRead).map (fun x => x.id)).Nodup :=
  reachable_ids_nodup _
    (@Reachable.create [] 0 ⟨"Тёмные аллеи", "Бунин Иван Алексеевич", 1937⟩
      ⟨"Тёмные аллеи", "Бунин Иван Алексеевич", 1937, uuid4 0,
        BookStatus.available⟩
      [⟨"Тёмные аллеи", "Бунин Иван Алексеевич", 1937, uuid4 0,
        BookStatus.available⟩]
      Reachable.empty (by decide) rfl)

/-! ## C5 -/

/-- C5: `list_books` returns a permutation of the store sorted ascending by
the tuple key `(title, author, id)` under lexicographic code-point
comparison; on the repository's four test titles, "1984" sorts first and
"Тёмные аллеи" sorts last. -/
theorem list_books_sorted :
    (∀ books : List BookRead,
        List.Perm (list_books books) books ∧
          (list_books books).Sorted (keyLe keyTitleAuthorId)) ∧
      (list_books [exTyomnye, exRekviem, exMertvye, ex1984]).head?.map
          (fun x => x.title) = some "1984" ∧
      (list_books [exTyomnye, exRekviem, exMertvye, ex1984]).getLast?.map
          (fun x => x.title) = some "Тёмные аллеи" := by
  refine ⟨fun books => ⟨List.perm_insertionSort _ books,
    List.sorted_insertionSort _ books⟩, ?_, ?_⟩ <;> decide

/-! ## C6 -/

theorem isPrefixOf_eq_true_iff (n h : List Char) :
    n.isPrefixOf h = true ↔ ∃ post, h = n ++ post := by
  rw [List.isPrefixOf_iff_prefix]
  constructor
  · rintro ⟨t, rfl⟩
    exact ⟨t, rfl⟩
  · rintro ⟨t, rfl⟩
    exact ⟨t, rfl⟩

/-- Python's `needle in hay` holds exactly when the needle occurs
contiguously somewhere in the haystack. -/
theorem containsSub_iff (n h : List Char) :
    containsSub n h = true ↔ ∃ pre post, h = pre ++ n ++ post := by
  induction h with
  | nil =>
    simp only [containsSub, List.isEmpty_iff]
    constructor
    · rintro rfl
      exact ⟨[], [], rfl⟩
    · rintro ⟨pre, post, hh⟩
      simp_all [List.append_eq_nil]
  | cons c rest ih =>
    simp only [containsSub, Bool.or_eq_true, isPrefixOf_eq_true_iff, ih]
    constructor
    · rintro (⟨post, hpost⟩ | ⟨pre, post, hh⟩)
      · exact ⟨[], post, by simpa using hpost⟩
      · exact ⟨c :: pre, post, by simp [hh]⟩
    · rintro ⟨pre, post, hh⟩
      cases pre with
      | nil =>
        exact Or.inl ⟨post, by simpa using hh⟩
      | cons p pre =>
        simp only [List.cons_append, List.cons.injEq] at hh
        obtain ⟨rfl, rfl⟩ := hh
        exact Or.inr ⟨pre, post, rfl⟩

/-- C6: substring search on title and author is case-insensitive (both
sides lowered) and substring-based, returns exactly the matching records,
sorted by `(title, author, year, id)` resp. `(author, title, year, id)`;
searching "Природа" matches "Природа" and "Разнообразная природа России"
but not "Просто книга". -/
theorem find_by_substring_spec :
    (∀ (books : List BookRead) (needle : String) (b : BookRead),
        (b ∈ find_books_by_name books needle ↔
          b ∈ books ∧ ∃ pre post,
            (strLower b.title).data = pre ++ (strLower needle).data ++ post) ∧
        (b ∈ find_books_by_author books needle ↔
          b ∈ books ∧ ∃ pre post,
            (strLower b.author).data = pre ++ (strLower needle).data ++ post)) ∧
    (∀ (books : List BookRead) (needle : String),
        List.Perm (find_books_by_name books needle)
          (books.filter fun book =>
            containsSub (strLower needle).data (strLower book.title).data) ∧
        (find_books_by_name books needle).Sorted (keyLe keyTitleAuthorYearId) ∧
        List.Perm (find_books_by_author books needle)
          (books.filter fun book =>
            containsSub (strLower needle).data (strLower book.author).data) ∧
        (find_books_by_author books needle).Sorted
          (keyLe keyAuthorTitleYearId)) ∧
    find_books_by_name [exPriroda, exRaznoobraznaya, exProsto] "Природа" =
      [exPriroda, exRaznoobraznaya] := by
  refine ⟨fun books needle b => ⟨?_, ?_⟩,
    fun books needle => ⟨List.perm_insertionSort _ _,
      List.sorted_insertionSort _ _, List.perm_insertionSort _ _,
      List.sorted_insertionSort _ _⟩, by decide⟩
  · simp [find_books_by_name, List.mem_filter, containsSub_iff]
  · simp [find_books_by_author, List.mem_filter, containsSub_iff]

/-! ## C7 -/

theorem find_book_by_id_eq_none (books : List BookRead) (book_id : String)
    (habs : ∀ b ∈ books, strLower book_id ≠ strLower b.id) :
    find_book_by_id books book_id = none := by
  apply List.find?_eq_none.mpr
  intro x hx
  simpa using habs x hx

theorem find_book_by_id_eq_some (books : List BookRead) (book_id : String)
    (r : BookRead) (hr : r ∈ books) (hm : strLower book_id = strLower r.id)
    (huniq : ∀ b ∈ books, strLower book_id = strLower b.id → b = r) :
    find_book_by_id books book_id = some r := by
  induction books with
  | nil => cases hr
  | cons b rest ih =>
    by_cases hb : strLower book_id = strLower b.id
    · have hbr : b = r := huniq b (List.mem_cons_self b rest) hb
      subst hbr
      simp [find_book_by_id, List.find?_cons_of_pos, hb]
    · have hbr : b ≠ r := fun hh => hb (hh ▸ hm)
      rcases List.mem_cons.mp hr with rfl | hr2
      · exact absurd hm hb
      · have ihh := ih hr2
          (fun x hx hxx => huniq x (List.mem_cons_of_mem b hx) hxx)
        rw [find_book_by_id] at ihh ⊢
        rw [List.find?_cons_of_neg _ (by simpa using hb)]
        exact ihh

theorem find_book_by_id_erase_eq_none (books : List BookRead)
    (book_id : String) (r : BookRead) (hr : r ∈ books)
    (hnodup : (books.map fun b => strLower b.id).Nodup)
    (hm : strLower book_id = strLower r.id) :
    find_book_by_id (books.erase r) book_id = none := by
  have hbooks : books.Nodup := List.Nodup.of_map _ hnodup
  apply List.find?_eq_none.mpr
  intro x hx
  have hx2 := (hbooks.mem_erase_iff.mp hx)
  intro hfind
  simp only [decide_eq_true_eq] at hfind
  exact hx2.1 (List.inj_on_of_nodup_map hnodup hx2.2 hr (hfind.symm.trans hm))

/-- C7 counterexample: the store holds one record with id `"ABC"`; no
record has the id `"abc"`, yet `Delete("abc")` does not raise
`BookDoesNotExists` — it succeeds and removes the record, because the
lookup lowers both ids. -/
theorem delete_absent_exact_id_succeeds :
    (∀ b ∈ [exUpperId], b.id ≠ "abc") ∧
      delete_book [exUpperId] "abc" = .ok [] := by
  exact ⟨by decide, rfl⟩

/-- C7 (amended): id matching in Delete is case-insensitive (it goes
through `find_book_by_id`).  Delete raises `BookDoesNotExists` and leaves
the store unchanged when no record's id matches the argument up to case;
when the store's lowered ids are pairwise distinct and some record matches
up to case, Delete removes that record and an immediately subsequent
FindById with the same argument returns nothing. -/
theorem delete_book_spec (books : List BookRead) (book_id : String) :
    ((∀ b ∈ books, strLower book_id ≠ strLower b.id) →
      delete_book books book_id = .error (bookDoesNotExistsMsg book_id)) ∧
    (∀ r ∈ books, strLower book_id = strLower r.id →
      ((books.map fun b => strLower b.id)).Nodup →
      delete_book books book_id = .ok (books.erase r) ∧
        find_book_by_id (books.erase r) book_id = none) := by
  constructor
  · intro habs
    simp [delete_book, find_book_by_id_eq_none books book_id habs]
  · intro r hr hm hnodup
    have huniq : ∀ b ∈ books, strLower book_id = strLower b.id → b = r :=
      fun b hb hbm =>
        List.inj_on_of_nodup_map hnodup hb hr (hbm.symm.trans hm)
    have hfind := find_book_by_id_eq_some books book_id r hr hm huniq
    exact ⟨by simp [delete_book, hfind],
      find_book_by_id_erase_eq_none books book_id r hr hnodup hm⟩

/-- C7 witness: both branches at concrete stores — an absent id raises
with the exact exception message, a present id (queried in a different
case) is removed and can no longer be found. -/
theorem delete_book_spec_witness :
    delete_book [ex1984] "zzz" = .error (bookDoesNotExistsMsg "zzz") ∧
      delete_book [exUpperId] "abc" = .ok ([exUpperId].erase exUpperId) ∧
      find_book_by_id ([exUpperId].erase exUpperId) "abc" = none := by
  refine ⟨(delete_book_spec [ex1984] "zzz").1 (by decide), ?_, ?_⟩
  · exact ((delete_book_spec [exUpperId] "abc").2 exUpperId (by decide)
      (by decide) (by decide)).1
  · exact ((delete_book_spec [exUpperId] "abc").2 exUpperId (by decide)
      (by decide) (by decide)).2

/-! ## C8 -/

theorem update_status_absent (books : List BookRead) (book_id : String)
    (status : BookStatus) (habs : ∀ b ∈ books, b.id ≠ book_id) :
    update_status books book_id status =
      .error (bookDoesNotExistsMsg book_id) := by
  induction books with
  | nil => rfl
  | cons b rest ih =>
    rw [update_status, if_neg (habs b (List.mem_cons_self b rest)),
      ih (fun x hx => habs x (List.mem_cons_of_mem b hx))]
    rfl

theorem update_status_found (pre : List BookRead) (b : BookRead)
    (post : List BookRead) (book_id : String) (status : BookStatus)
    (hpre : ∀ x ∈ pre, x.id ≠ book_id) (hb : b.id = book_id) :
    update_status (pre ++ b :: post) book_id status =
      .ok (pre ++ { b with status := status } :: post) := by
  induction pre with
  | nil => simp [update_status, hb]
  | cons p pre ih =>
    rw [List.cons_append, update_status,
      if_neg (hpre p (List.mem_cons_self p pre)),
      ih (fun x hx => hpre x (List.mem_cons_of_mem p hx))]
    rfl

theorem update_status_idem (books books' : List BookRead) (book_id : String)
    (status : BookStatus)
    (hok : update_status books book_id status = .ok books') :
    update_status books' book_id status = .ok books' := by
  induction books generalizing books' with
  | nil => cases hok
  | cons b rest ih =>
    by_cases hb : b.id = book_id
    · simp only [update_status, if_pos hb, Except.ok.injEq] at hok
      subst hok
      simp [update_status, hb]
    · simp only [update_status, if_neg hb] at hok
      cases hrec : update_status rest book_id status with
      | error e => rw [hrec] at hok; simp [Except.map] at hok
      | ok l =>
        rw [hrec] at hok
        simp only [Except.map, Except.ok.injEq] at hok
        subst hok
        simp [update_status, if_neg hb, ih l hrec, Except.map]

/-- C8: UpdateStatus raises `BookDoesNotExists` when no record has the
given id; when a record has it, UpdateStatus succeeds and unconditionally
overwrites the first such record's status with the given value, whatever
its current status; and issuing the same UpdateStatus twice yields the
same store as issuing it once. -/
theorem update_status_spec (books : List BookRead) (book_id : String)
    (status : BookStatus) :
    ((∀ b ∈ books, b.id ≠ book_id) →
      update_status books book_id status =
        .error (bookDoesNotExistsMsg book_id)) ∧
    (∀ pre b post, books = pre ++ b :: post →
      (∀ x ∈ pre, x.id ≠ book_id) → b.id = book_id →
      update_status books book_id status =
        .ok (pre ++ { b with status := status } :: post)) ∧
    (∀ books', update_status books book_id status = .ok books' →
      update_status books' book_id status = .ok books') :=
  ⟨update_status_absent books book_id status,
    fun pre b post hsplit hpre hb =>
      hsplit ▸ update_status_found pre b post book_id status hpre hb,
    fun books' hok => update_status_idem books books' book_id status hok⟩

/-- C8 witness: the three behaviours at concrete stores — an absent id
raises, a present id is overwritten (from `available` straight to
`issued`), and repeating the same update changes nothing further. -/
theorem update_status_spec_witness :
    update_status [ex1984] "zzz" BookStatus.issued =
        .error (bookDoesNotExistsMsg "zzz") ∧
      update_status [ex1984] "id-4" BookStatus.issued =
        .ok [{ ex1984 with status := BookStatus.issued }] ∧
      update_status [{ ex1984 with status := BookStatus.issued }] "id-4"
          BookStatus.issued =
        .ok [{ ex1984 with status := BookStatus.issued }] := by
  refine ⟨(update_status_spec [ex1984] "zzz" BookStatus.issued).1 (by decide),
    ?_, ?_⟩
  · have h := (update_status_spec [ex1984] "id-4" BookStatus.issued).2.1
      [] ex1984 [] rfl (by simp) (by decide)
    simpa using h
  · exact (update_status_spec [ex1984] "id-4" BookStatus.issued).2.2
      [{ ex1984 with status := BookStatus.issued }] rfl

/-! ## C9 -/

/-- C9: on a string of decimal digits, FindByYear returns exactly the same
list, in the same order, as on the integer value of that string; any list
it returns is sorted by `(year, author, title, id)`. -/
theorem find_books_by_year_str_coe (books : List BookRead) (s : String)
    (hne : s.data ≠ []) (hdig : s.data.all (fun c => c.isDigit) = true) :
    find_books_by_year books (.inr s) =
        find_books_by_year books (.inl (strDigitsToInt s)) ∧
      ∀ l, find_books_by_year books (.inr s) = some l →
        l.Sorted (keyLe keyYearAuthorTitleId) := by
  have hp : pyInt (.inr s) = some (strDigitsToInt s) := by
    have hcond : (s.data ≠ [] && s.data.all (fun c => c.isDigit)) = true := by
      rw [Bool.and_eq_true]
      exact ⟨by simpa using hne, hdig⟩
    simp only [pyInt, hcond, if_true]
  constructor
  · simp only [find_books_by_year, hp]
    rfl
  · intro l hl
    simp only [find_books_by_year, hp, Option.map_some'] at hl
    rw [← Option.some.injEq] at hl
    cases hl
    exact List.sorted_insertionSort _ _

/-- C9 witness: searching the year as the string `"1111"` and as the
integer 1111 (its value) gives the same result on a concrete store. -/
theorem find_books_by_year_str_coe_witness :
    (find_books_by_year [ex1984, exPriroda] (.inr "1111") =
        find_books_by_year [ex1984, exPriroda]
          (.inl (strDigitsToInt "1111")) ∧
      ∀ l, find_books_by_year [ex1984, exPriroda] (.inr "1111") = some l →
        l.Sorted (keyLe keyYearAuthorTitleId)) ∧
      strDigitsToInt "1111" = 1111 :=
  ⟨find_books_by_year_str_coe [ex1984, exPriroda] "1111" (by decide)
    (by decide), by decide⟩

/-! ## C10 -/

/-- C10 counterexample: the store holds a record with id `"ABC"` (equal to
the query `"abc"` only up to case) and also a record with id exactly
`"abc"`; `UpdateStatus("abc", issued)` then succeeds instead of raising
`BookDoesNotExists`, so the claim as stated fails. -/
theorem update_status_exact_match_present :
    exUpperId ∈ [exUpperId, exLowerId] ∧ exUpperId.id ≠ "abc" ∧
      strLower exUpperId.id = strLower "abc" ∧
      update_status [exUpperId, exLowerId] "abc" BookStatus.issued =
        .ok [exUpperId, { exLowerId with status := BookStatus.issued }] := by
  exact ⟨by decide, by decide, by decide, rfl⟩

/-- C10 (amended): when the store contains exactly one record whose
lowered id equals the lowered query, and that record's id differs from the
query as written, then FindById returns that record and Delete removes it
(both lower the ids before comparing), while UpdateStatus — which compares
ids exactly — raises `BookDoesNotExists` for the very same query. -/
theorem id_lookup_case_sensitivity (books : List BookRead) (q : String)
    (r : BookRead) (status : BookStatus) (hr : r ∈ books)
    (hci : strLower q = strLower r.id) (hne : r.id ≠ q)
    (huniq : ∀ b ∈ books, strLower q = strLower b.id → b = r) :
    find_book_by_id books q = some r ∧
      delete_book books q = .ok (books.erase r) ∧
      update_status books q status = .error (bookDoesNotExistsMsg q) := by
  have hfind := find_book_by_id_eq_some books q r hr hci huniq
  refine ⟨hfind, by simp [delete_book, hfind], ?_⟩
  apply update_status_absent
  intro b hb hbq
  have hb2 : strLower q = strLower b.id := by rw [hbq]
  have hbr : b = r := huniq b hb hb2
  subst hbr
  exact hne hbq

/-- C10 witness: a concrete store holding only the record with id `"ABC"`,
queried with `"abc"`. -/
theorem id_lookup_case_sensitivity_witness :
    find_book_by_id [exUpperId] "abc" = some exUpperId ∧
      delete_book [exUpperId] "abc" = .ok ([exUpperId].erase exUpperId) ∧
      update_status [exUpperId] "abc" BookStatus.issued =
        .error (bookDoesNotExistsMsg "abc") :=
  id_lookup_case_sensitivity [exUpperId] "abc" exUpperId BookStatus.issued
    (by decide) (by decide) (by decide) (by decide)

end CliLibrary
